import Mathlib

/-!
Shallow embedding of `pkg/config/common.go` from golgeek/caddy-auth-jwt.

The Go file manages a registry of token-signing key material inside
`CommonTokenConfig`: a map `kid → key object` (`tokenKeys`), a committed
key-family tag (`tokenType`), and a config-provenance tag (`tokenOrigin`),
together with the RSA/ECDSA configuration fields.

Go dynamic key values (`interface{}`) are modelled by the inductive
`KeyMaterial`: a string, an RSA/ECDSA private/public key object (with a
`Nat` tag standing for the mathematical content of the key, so that a private
key and the public key derived from it share the tag), or any other value.
The Go `map[string]interface{}` (which distinguishes `nil` from empty) is
modelled by `Option (List (String × KeyMaterial))` with unique-key
insert/lookup operations mirroring Go map semantics; list order stands for
one admissible (unspecified in Go) iteration order.

Methods that mutate the receiver are modelled as functions returning a
`(result, new state)` pair.
-/

set_option autoImplicit false

namespace CaddyAuthJwt

/-- The named errors from `pkg/errors` that `common.go` returns. -/
inductive JwtError where
  | ErrKeyIDNotFound
  | ErrUnsupportedKeyType
  | ErrMixedConfigKeyType
  | ErrUnsupportedConfigKeyType
  | ErrRSAKeysNotFound
  | ErrECDSAKeysNotFound
  | ErrEmptyTokenConfigOrigin
  | ErrUnsupportedTokenConfigOrigin
deriving DecidableEq, Repr

deriving instance DecidableEq for Except

/-- A dynamically-typed key value (`interface{}` in Go). The `Nat` tag
identifies the underlying key material: `rsaPrivateKey n` and
`rsaPublicKey n` stand for an RSA private key and the public key embedded
in it (`privkey.PublicKey`). `other` covers every runtime type that is not
a string or an RSA/ECDSA key object. -/
inductive KeyMaterial where
  | str (s : String)
  | rsaPrivateKey (n : Nat)
  | rsaPublicKey (n : Nat)
  | ecdsaPrivateKey (n : Nat)
  | ecdsaPublicKey (n : Nat)
  | other (n : Nat)
deriving DecidableEq, Repr

/-- Taking `&privkey.PublicKey` from a private key object. -/
def publicKeyOf : KeyMaterial → KeyMaterial
  | .rsaPrivateKey n => .rsaPublicKey n
  | .ecdsaPrivateKey n => .ecdsaPublicKey n
  | k => k

/-- Whether a value is an RSA or ECDSA private key object. -/
def isPrivateKey : KeyMaterial → Bool
  | .rsaPrivateKey _ => true
  | .ecdsaPrivateKey _ => true
  | _ => false

/-- Whether a value is an RSA or ECDSA public key object. -/
def isPublicKeyObj : KeyMaterial → Bool
  | .rsaPublicKey _ => true
  | .ecdsaPublicKey _ => true
  | _ => false

/-- Association-list model of a Go `map[string]V`: lookup of the entry
stored for a key. -/
def mapLookup {V : Type} : List (String × V) → String → Option V
  | [], _ => none
  | p :: rest, k => if p.1 = k then some p.2 else mapLookup rest k

/-- Go `_, exists := m[k]`. -/
def mapContains {V : Type} (m : List (String × V)) (k : String) : Bool :=
  (mapLookup m k).isSome

/-- Go `m[k] = v`: replace the entry if the key is present, else append. -/
def mapInsert {V : Type} : List (String × V) → String → V → List (String × V)
  | [], k, v => [(k, v)]
  | p :: rest, k, v => if p.1 = k then (k, v) :: rest else p :: mapInsert rest k v

/-- Package variable `defaultKeyID = "0"` in `common.go`. -/
def defaultKeyID : String := "0"

/-- The state of `CommonTokenConfig` relevant to the registry logic:
the private fields `tokenOrigin`, `tokenType`, `tokenKeys`, and the
RSA/ECDSA configuration fields queried by `HasRSAKeys`/`HasECDSAKeys`.
Go zero values are the defaults (`""` for strings, `nil` for maps). -/
structure CommonTokenConfig where
  tokenOrigin : String := ""
  tokenType : String := ""
  tokenKeys : Option (List (String × KeyMaterial)) := none
  TokenRSADir : String := ""
  TokenRSAFiles : Option (List (String × String)) := none
  TokenRSAKeys : Option (List (String × String)) := none
  TokenRSAFile : String := ""
  TokenRSAKey : String := ""
  TokenECDSADir : String := ""
  TokenECDSAFiles : Option (List (String × String)) := none
  TokenECDSAKeys : Option (List (String × String)) := none
  TokenECDSAFile : String := ""
  TokenECDSAKey : String := ""
deriving DecidableEq, Repr

/-- The entries of the registry map (`nil` map reads as empty). -/
def CommonTokenConfig.entries (c : CommonTokenConfig) : List (String × KeyMaterial) :=
  c.tokenKeys.getD []

/-- Go method `HasRSAKeys` (common.go lines 166-184). -/
def HasRSAKeys (c : CommonTokenConfig) : Bool :=
  if c.TokenRSADir ≠ "" then true
  else if c.TokenRSAFile ≠ "" then true
  else if c.TokenRSAKey ≠ "" then true
  else if c.TokenRSAFiles ≠ none then true
  else if c.TokenRSAKeys ≠ none then true
  else false

/-- Go method `HasECDSAKeys` (common.go lines 186-204). -/
def HasECDSAKeys (c : CommonTokenConfig) : Bool :=
  if c.TokenECDSADir ≠ "" then true
  else if c.TokenECDSAFile ≠ "" then true
  else if c.TokenECDSAKey ≠ "" then true
  else if c.TokenECDSAFiles ≠ none then true
  else if c.TokenECDSAKeys ≠ none then true
  else false

/-- Go method `GetOrigin` (common.go lines 212-217). -/
def GetOrigin (c : CommonTokenConfig) : String :=
  if c.tokenOrigin = "" then "unknown" else c.tokenOrigin

/-- Go method `SetOrigin` (common.go lines 220-230): the `switch` falls through to
the assignment for `"config"`/`"env"`, returns early on `"empty"` and on
any other name. -/
def SetOrigin (name : String) (c : CommonTokenConfig) :
    Except JwtError Unit × CommonTokenConfig :=
  if name = "config" ∨ name = "env" then
    (.ok (), { c with tokenOrigin := name })
  else if name = "empty" then
    (.error .ErrEmptyTokenConfigOrigin, c)
  else
    (.error .ErrUnsupportedTokenConfigOrigin, c)

/-- Go method `GetKeys` (common.go lines 233-235). -/
def GetKeys (c : CommonTokenConfig) :
    String × Option (List (String × KeyMaterial)) :=
  (c.tokenType, c.tokenKeys)

/-- Go method `AddPublicKey` (common.go lines 238-266). An empty `keyID` fails with
`ErrKeyIDNotFound`; a `nil` map is initialized; a private key stores its
embedded public key at `keyID` and, when no entry exists at the default
kid, also there; a public key object is stored as is; anything else fails
with `ErrUnsupportedKeyType`. -/
def AddPublicKey (keyID : String) (keyMaterial : KeyMaterial)
    (c : CommonTokenConfig) : Except JwtError Unit × CommonTokenConfig :=
  if keyID = "" then
    (.error .ErrKeyIDNotFound, c)
  else
    let m := c.tokenKeys.getD []
    match keyMaterial with
    | .rsaPrivateKey n =>
        let m := mapInsert m keyID (.rsaPublicKey n)
        let m := if mapContains m defaultKeyID then m
                 else mapInsert m defaultKeyID (.rsaPublicKey n)
        (.ok (), { c with tokenKeys := some m })
    | .ecdsaPrivateKey n =>
        let m := mapInsert m keyID (.ecdsaPublicKey n)
        let m := if mapContains m defaultKeyID then m
                 else mapInsert m defaultKeyID (.ecdsaPublicKey n)
        (.ok (), { c with tokenKeys := some m })
    | .rsaPublicKey n =>
        (.ok (), { c with tokenKeys := some (mapInsert m keyID (.rsaPublicKey n)) })
    | .ecdsaPublicKey n =>
        (.ok (), { c with tokenKeys := some (mapInsert m keyID (.ecdsaPublicKey n)) })
    | _ =>
        (.error .ErrUnsupportedKeyType, { c with tokenKeys := some m })

/-- Go method `GetPrivateKey` (common.go lines 269-289): a `nil` map fails with
`ErrRSAKeysNotFound`; otherwise the first entry (in iteration order) at a
non-default kid holding a private key object is returned with its kid;
with none, the error depends on the committed family. -/
def GetPrivateKey (c : CommonTokenConfig) :
    Except JwtError (KeyMaterial × String) :=
  match c.tokenKeys with
  | none => .error .ErrRSAKeysNotFound
  | some m =>
    match m.find? (fun p => decide (p.1 ≠ defaultKeyID) && isPrivateKey p.2) with
    | some p => .ok (p.2, p.1)
    | none =>
      if c.tokenType = "ecdsa" then .error .ErrECDSAKeysNotFound
      else .error .ErrRSAKeysNotFound

/-- Go method `getKeyType` (common.go lines 310-327): classification of a key value
into its family. The receiver is unused in Go; a plain function here. -/
def getKeyType (k : KeyMaterial) : Except JwtError String :=
  match k with
  | .str _ => .ok "secret"
  | .rsaPrivateKey _ => .ok "rsa"
  | .rsaPublicKey _ => .ok "rsa"
  | .ecdsaPrivateKey _ => .ok "ecdsa"
  | .ecdsaPublicKey _ => .ok "ecdsa"
  | .other _ => .error .ErrUnsupportedConfigKeyType

/-- Go method `AddKey` (common.go lines 292-308): a `nil` map is initialized first;
classification failure propagates; the first successful call commits the
family; a differing family fails with `ErrMixedConfigKeyType`; otherwise
the key is stored under `k` unchanged. -/
def AddKey (k : String) (pk : KeyMaterial) (c : CommonTokenConfig) :
    Except JwtError Unit × CommonTokenConfig :=
  let c := { c with tokenKeys := some (c.tokenKeys.getD []) }
  match getKeyType pk with
  | .error e => (.error e, c)
  | .ok keyType =>
    let c := if c.tokenType = "" then { c with tokenType := keyType } else c
    if c.tokenType ≠ keyType then
      (.error .ErrMixedConfigKeyType, c)
    else
      (.ok (), { c with tokenKeys := some (mapInsert (c.tokenKeys.getD []) k pk) })

/-- Go method `LoadKeys` (common.go lines 330-336): a registry that already holds at
least one entry short-circuits with success; otherwise `c.load()` runs.
The method `load` lives outside `common.go` and is passed in as a parameter. -/
def LoadKeys (load : CommonTokenConfig → Except JwtError Unit × CommonTokenConfig)
    (c : CommonTokenConfig) : Except JwtError Unit × CommonTokenConfig :=
  if (c.tokenKeys.getD []).length > 0 then (.ok (), c) else load c

/-- States of `CommonTokenConfig` reachable from the zero value through the
state-mutating methods of `common.go` (the fields are private in Go, so no
other state arises). -/
inductive Reachable : CommonTokenConfig → Prop where
  | init : Reachable {}
  | setOrigin (name : String) {c : CommonTokenConfig} :
      Reachable c → Reachable (SetOrigin name c).2
  | addPublicKey (keyID : String) (km : KeyMaterial) {c : CommonTokenConfig} :
      Reachable c → Reachable (AddPublicKey keyID km c).2
  | addKey (k : String) (pk : KeyMaterial) {c : CommonTokenConfig} :
      Reachable c → Reachable (AddKey k pk c).2


/-! ### Lemmas about the Go-map model -/

theorem mapLookup_insert_self {V : Type} (m : List (String × V)) (k : String)
    (v : V) : mapLookup (mapInsert m k v) k = some v := by
  induction m with
  | nil => simp [mapInsert, mapLookup]
  | cons p rest ih =>
    by_cases h : p.1 = k
    · simp [mapInsert, h, mapLookup]
    · simp [mapInsert, h, mapLookup, ih]

theorem mapLookup_insert_ne {V : Type} (m : List (String × V)) (k k' : String)
    (v : V) (h : k' ≠ k) : mapLookup (mapInsert m k v) k' = mapLookup m k' := by
  have hk : ¬ (k = k') := fun he => h (Eq.symm he)
  induction m with
  | nil => simp [mapInsert, mapLookup, hk]
  | cons p rest ih =>
    by_cases hp : p.1 = k
    · subst hp
      simp [mapInsert, mapLookup, hk]
    · simp only [mapInsert, if_neg hp, mapLookup]
      by_cases hp' : p.1 = k'
      · simp [hp']
      · simp [hp', ih]

theorem mapContains_insert_ne {V : Type} (m : List (String × V)) (k k' : String)
    (v : V) (h : k' ≠ k) : mapContains (mapInsert m k v) k' = mapContains m k' := by
  simp [mapContains, mapLookup_insert_ne m k k' v h]

theorem mem_mapInsert {V : Type} {m : List (String × V)} {k : String} {v : V}
    {p : String × V} (h : p ∈ mapInsert m k v) : p = (k, v) ∨ p ∈ m := by
  induction m with
  | nil => simpa [mapInsert] using h
  | cons q rest ih =>
    by_cases hq : q.1 = k
    · simp only [mapInsert, if_pos hq, List.mem_cons] at h
      rcases h with h | h
      · exact Or.inl h
      · exact Or.inr (List.mem_cons_of_mem q h)
    · simp only [mapInsert, if_neg hq, List.mem_cons] at h
      rcases h with h | h
      · exact Or.inr (h ▸ List.mem_cons_self q rest)
      · rcases ih h with h' | h'
        · exact Or.inl h'
        · exact Or.inr (List.mem_cons_of_mem q h')

/-! ### Per-operation frame lemmas and the reachable-state invariant -/

theorem setOrigin_preserves_keys (name : String) (c : CommonTokenConfig) :
    (SetOrigin name c).2.tokenKeys = c.tokenKeys ∧
    (SetOrigin name c).2.tokenType = c.tokenType := by
  unfold SetOrigin
  split_ifs <;> simp

theorem addPublicKey_preserves_type (keyID : String) (km : KeyMaterial)
    (c : CommonTokenConfig) :
    (AddPublicKey keyID km c).2.tokenType = c.tokenType ∧
    (c.tokenKeys ≠ none → (AddPublicKey keyID km c).2.tokenKeys ≠ none) := by
  unfold AddPublicKey
  split_ifs
  · simp
  · cases km <;> simp

theorem addKey_tokenKeys_allocated (k : String) (pk : KeyMaterial)
    (c : CommonTokenConfig) : (AddKey k pk c).2.tokenKeys ≠ none := by
  rcases hgt : getKeyType pk with e | kt <;> simp only [AddKey, hgt]
  · simp
  · split_ifs <;> simp

/-- In every state reachable through the methods of `common.go`, a committed
key family implies that the registry map has been allocated: `tokenType` is
only ever set inside `AddKey`, after `tokenKeys` is initialized. -/
theorem reachable_family_has_map {c : CommonTokenConfig} (h : Reachable c) :
    c.tokenType ≠ "" → c.tokenKeys ≠ none := by
  induction h with
  | init => simp
  | setOrigin name _ ih =>
    intro ht
    rw [(setOrigin_preserves_keys name _).1]
    exact ih (by rwa [(setOrigin_preserves_keys name _).2] at ht)
  | addPublicKey keyID km _ ih =>
    intro ht
    refine (addPublicKey_preserves_type keyID km _).2 (ih ?_)
    rwa [(addPublicKey_preserves_type keyID km _).1] at ht
  | addKey k pk _ _ =>
    intro _
    exact addKey_tokenKeys_allocated k pk _

/-! ### Claim theorems -/

/-- C1 counterexample: inserting the RSA private key tagged `0` at kid
`"k1"` into the empty configuration succeeds, but the entry stored at
`"k1"` is the derived public key, not the private key the claim states. -/
theorem addPublicKey_kid_entry_is_public_counterexample :
    (AddPublicKey "k1" (.rsaPrivateKey 0) {}).1 = .ok () ∧
    mapLookup ((AddPublicKey "k1" (.rsaPrivateKey 0) {}).2).entries "k1"
      = some (.rsaPublicKey 0) ∧
    mapLookup ((AddPublicKey "k1" (.rsaPrivateKey 0) {}).2).entries "k1"
      ≠ some (.rsaPrivateKey 0) := by
  refine ⟨by decide, by decide, by decide⟩

/-- C1 (amended): inserting an RSA private key at kid `"k1"` via
`AddPublicKey` into a configuration with an empty registry succeeds and
produces exactly two entries, the derived public key at `"k1"` and the
same derived public key at the default kid `"0"`. -/
theorem addPublicKey_first_rsa_private_insert (c : CommonTokenConfig)
    (n : Nat) (h : c.entries = []) :
    (AddPublicKey "k1" (.rsaPrivateKey n) c).1 = .ok () ∧
    ((AddPublicKey "k1" (.rsaPrivateKey n) c).2).tokenKeys
      = some [("k1", .rsaPublicKey n), ("0", .rsaPublicKey n)] := by
  have h' : c.tokenKeys.getD [] = [] := h
  constructor <;>
    simp [AddPublicKey, h', mapInsert, mapContains, mapLookup, defaultKeyID]

/-- C1 witness: the amended statement evaluated on the empty configuration
and the RSA private key tagged `0`. -/
theorem addPublicKey_first_rsa_private_insert_witness :
    (AddPublicKey "k1" (.rsaPrivateKey 0) {}).1 = .ok () ∧
    ((AddPublicKey "k1" (.rsaPrivateKey 0) {}).2).tokenKeys
      = some [("k1", .rsaPublicKey 0), ("0", .rsaPublicKey 0)] :=
  addPublicKey_first_rsa_private_insert {} 0 rfl

/-- C2 counterexample: after `AddKey` commits family `secret`, inserting an
RSA public key through `AddPublicKey` still succeeds, because
`AddPublicKey` performs no family check. -/
theorem mixed_family_via_addPublicKey_counterexample :
    (AddKey "a" (.str "s") {}).1 = .ok () ∧
    getKeyType (.str "s") = .ok "secret" ∧
    getKeyType (.rsaPublicKey 0) = .ok "rsa" ∧
    (AddPublicKey "b" (.rsaPublicKey 0) (AddKey "a" (.str "s") {}).2).1
      = .ok () := by
  refine ⟨by decide, by decide, by decide, by decide⟩

/-- C2 (amended): once a family is committed (`tokenType` nonempty, which
exactly the first successful `AddKey` establishes), every later `AddKey`
of a key classifying to a different family fails with
`ErrMixedConfigKeyType`, leaving the registry entries and the committed
family unchanged; this holds for every order of families. `AddPublicKey`
is not covered: it performs no family check. -/
theorem addKey_mixed_family_fails (c : CommonTokenConfig) (k : String)
    (pk : KeyMaterial) (fam : String)
    (hcommit : c.tokenType ≠ "") (hfam : getKeyType pk = .ok fam)
    (hne : fam ≠ c.tokenType) :
    (AddKey k pk c).1 = .error .ErrMixedConfigKeyType ∧
    ((AddKey k pk c).2).entries = c.entries ∧
    ((AddKey k pk c).2).tokenType = c.tokenType := by
  have hne' : ¬ (c.tokenType = fam) := fun he => hne (Eq.symm he)
  constructor
  · simp [AddKey, hfam, hcommit, hne']
  · constructor <;> simp [AddKey, hfam, hcommit, hne', CommonTokenConfig.entries]

/-- C2 witness: the amended statement evaluated after committing family
`secret` and then adding an RSA public key with `AddKey`. -/
theorem addKey_mixed_family_fails_witness :
    ((AddKey "a" (.str "s") {}).2).tokenType ≠ "" ∧
    ((AddKey "b" (.rsaPublicKey 1) (AddKey "a" (.str "s") {}).2).1
        = .error .ErrMixedConfigKeyType ∧
      ((AddKey "b" (.rsaPublicKey 1) (AddKey "a" (.str "s") {}).2).2).entries
        = ((AddKey "a" (.str "s") {}).2).entries ∧
      ((AddKey "b" (.rsaPublicKey 1) (AddKey "a" (.str "s") {}).2).2).tokenType
        = ((AddKey "a" (.str "s") {}).2).tokenType) :=
  ⟨by decide,
    addKey_mixed_family_fails (AddKey "a" (.str "s") {}).2 "b"
      (.rsaPublicKey 1) "rsa" (by decide) (by decide) (by decide)⟩

/-- C3 counterexample: `AddKey` accepts the empty kid: inserting the shared
secret `"s"` at kid `""` succeeds and stores the entry. -/
theorem addKey_empty_kid_counterexample :
    (AddKey "" (.str "s") {}).1 = .ok () ∧
    mapLookup ((AddKey "" (.str "s") {}).2).entries "" = some (.str "s") := by
  refine ⟨by decide, by decide⟩

/-- C3 (amended): for every key value and every configuration,
`AddPublicKey` with an empty kid fails with `ErrKeyIDNotFound` and leaves
the configuration completely unchanged. `AddKey` is not covered: it
performs no empty-kid check. -/
theorem addPublicKey_empty_kid_fails (c : CommonTokenConfig)
    (km : KeyMaterial) :
    AddPublicKey "" km c = (.error .ErrKeyIDNotFound, c) := by
  simp [AddPublicKey]


/-- C5: `LoadKeys` on a configuration whose registry already holds at
least one entry returns success immediately with the configuration
unchanged, whatever the loading pipeline `load` would do. -/
theorem loadKeys_populated_noop
    (load : CommonTokenConfig → Except JwtError Unit × CommonTokenConfig)
    (c : CommonTokenConfig) (h : 0 < c.entries.length) :
    LoadKeys load c = (.ok (), c) := by
  unfold LoadKeys
  rw [if_pos]
  exact h

/-- C5 witness: a second `LoadKeys` after a populating `AddKey` is a no-op
even with a pipeline that would fail. -/
theorem loadKeys_populated_noop_witness :
    0 < ((AddKey "a" (.str "s") {}).2).entries.length ∧
    LoadKeys (fun c => (.error .ErrRSAKeysNotFound, c))
        (AddKey "a" (.str "s") {}).2
      = (.ok (), (AddKey "a" (.str "s") {}).2) :=
  ⟨by decide,
    loadKeys_populated_noop (fun c => (.error .ErrRSAKeysNotFound, c))
      (AddKey "a" (.str "s") {}).2 (by decide)⟩

/-- C6: `SetOrigin` succeeds exactly on `"config"` and `"env"`, recording
the name; it fails with `ErrEmptyTokenConfigOrigin` on the sentinel
`"empty"` and with `ErrUnsupportedTokenConfigOrigin` on every other name,
returning the configuration unchanged in both failure cases; and
`GetOrigin` returns `"unknown"` whenever the origin was never set. -/
theorem setOrigin_getOrigin_spec (c : CommonTokenConfig) (name : String) :
    ((name = "config" ∨ name = "env") →
      SetOrigin name c = (.ok (), { c with tokenOrigin := name }))
    ∧ (name = "empty" →
      SetOrigin name c = (.error .ErrEmptyTokenConfigOrigin, c))
    ∧ (name ≠ "config" → name ≠ "env" → name ≠ "empty" →
      SetOrigin name c = (.error .ErrUnsupportedTokenConfigOrigin, c))
    ∧ (c.tokenOrigin = "" → GetOrigin c = "unknown") := by
  refine ⟨?_, ?_, ?_, ?_⟩
  · intro h
    simp [SetOrigin, h]
  · intro h
    subst h
    simp [SetOrigin]
  · intro h1 h2 h3
    simp [SetOrigin, h1, h2, h3]
  · intro h
    simp [GetOrigin, h]

/-- C6 witness: `SetOrigin "bogus"` on the fresh configuration fails with
`ErrUnsupportedTokenConfigOrigin` and `GetOrigin` still says `"unknown"`. -/
theorem setOrigin_getOrigin_spec_witness :
    SetOrigin "bogus" ({} : CommonTokenConfig)
        = (.error .ErrUnsupportedTokenConfigOrigin, {}) ∧
    GetOrigin ({} : CommonTokenConfig) = "unknown" :=
  ⟨(setOrigin_getOrigin_spec {} "bogus").2.2.1 (by decide) (by decide)
      (by decide),
    (setOrigin_getOrigin_spec {} "bogus").2.2.2 rfl⟩

/-- C8: `getKeyType` is a pure total classification: strings map to
`"secret"`, RSA private and public key objects to `"rsa"`, ECDSA private
and public key objects to `"ecdsa"`, and every other value fails with
`ErrUnsupportedConfigKeyType`; in particular a private key and the public
key derived from it classify to the same family. -/
theorem getKeyType_spec :
    (∀ s, getKeyType (.str s) = .ok "secret")
    ∧ (∀ n, getKeyType (.rsaPrivateKey n) = .ok "rsa")
    ∧ (∀ n, getKeyType (.rsaPublicKey n) = .ok "rsa")
    ∧ (∀ n, getKeyType (.ecdsaPrivateKey n) = .ok "ecdsa")
    ∧ (∀ n, getKeyType (.ecdsaPublicKey n) = .ok "ecdsa")
    ∧ (∀ n, getKeyType (.other n) = .error .ErrUnsupportedConfigKeyType)
    ∧ (∀ n, getKeyType (publicKeyOf (.rsaPrivateKey n)) = .ok "rsa")
    ∧ (∀ n, getKeyType (publicKeyOf (.ecdsaPrivateKey n)) = .ok "ecdsa") := by
  refine ⟨?_, ?_, ?_, ?_, ?_, ?_, ?_, ?_⟩ <;> intro x <;> rfl

/-- C10: `HasRSAKeys` is true exactly when one of the five RSA
configuration fields is set (strings nonempty, maps non-`nil`), and
`HasECDSAKeys` likewise for the ECDSA fields; a non-`nil` but empty map
already makes the predicate true. -/
theorem hasKeys_iff (c : CommonTokenConfig) :
    (HasRSAKeys c = true ↔
      (c.TokenRSADir ≠ "" ∨ c.TokenRSAFile ≠ "" ∨ c.TokenRSAKey ≠ "" ∨
        c.TokenRSAFiles ≠ none ∨ c.TokenRSAKeys ≠ none))
    ∧ (HasECDSAKeys c = true ↔
      (c.TokenECDSADir ≠ "" ∨ c.TokenECDSAFile ≠ "" ∨ c.TokenECDSAKey ≠ "" ∨
        c.TokenECDSAFiles ≠ none ∨ c.TokenECDSAKeys ≠ none))
    ∧ HasRSAKeys { TokenRSAFiles := some [] } = true
    ∧ HasECDSAKeys { TokenECDSAKeys := some [] } = true := by
  refine ⟨?_, ?_, by decide, by decide⟩
  · unfold HasRSAKeys
    split_ifs <;> simp_all
  · unfold HasECDSAKeys
    split_ifs <;> simp_all


/-- Folding a list of `(kid, key)` insertions through `AddPublicKey`. -/
def addPublicKeys (l : List (String × KeyMaterial)) (c : CommonTokenConfig) :
    CommonTokenConfig :=
  l.foldl (fun c p => (AddPublicKey p.1 p.2 c).2) c

/-- One `AddPublicKey` step at a kid other than the default leaves the
entry stored at the default kid untouched, provided that entry exists. -/
theorem addPublicKey_default_frame (c : CommonTokenConfig) (kid : String)
    (km : KeyMaterial) (h0 : mapContains c.entries defaultKeyID = true)
    (hkid : kid ≠ defaultKeyID) :
    mapLookup ((AddPublicKey kid km c).2).entries defaultKeyID
      = mapLookup c.entries defaultKeyID := by
  unfold AddPublicKey
  split_ifs with he
  · rfl
  · have hframe : ∀ v,
        mapLookup (mapInsert (c.tokenKeys.getD []) kid v) defaultKeyID
          = mapLookup (c.tokenKeys.getD []) defaultKeyID := fun v =>
      mapLookup_insert_ne (c.tokenKeys.getD []) kid defaultKeyID v
        (fun hd => hkid (Eq.symm hd))
    have hcont : ∀ v,
        mapContains (mapInsert (c.tokenKeys.getD []) kid v) defaultKeyID
          = true := fun v => by
      rw [mapContains_insert_ne (c.tokenKeys.getD []) kid defaultKeyID v
        (fun hd => hkid (Eq.symm hd))]
      exact h0
    cases km <;>
      simp only [CommonTokenConfig.entries, Option.getD_some] <;>
      first
        | exact rfl
        | (rw [if_pos (hcont _)]; exact hframe _)
        | exact hframe _

/-- C7: over every sequence of private-key insertions through
`AddPublicKey` at nonempty kids other than the default kid `"0"`, the
entry at the default kid, once present, is never overwritten: the first
writer establishes the default. -/
theorem addPublicKeys_default_unchanged (c : CommonTokenConfig)
    (l : List (String × KeyMaterial))
    (h0 : mapContains c.entries defaultKeyID = true)
    (hl : ∀ p ∈ l, p.1 ≠ defaultKeyID ∧ p.1 ≠ "" ∧ isPrivateKey p.2 = true) :
    mapLookup ((addPublicKeys l c).entries) defaultKeyID
      = mapLookup c.entries defaultKeyID := by
  induction l generalizing c with
  | nil => rfl
  | cons p rest ih =>
    have hp := hl p (List.mem_cons_self p rest)
    have hstep := addPublicKey_default_frame c p.1 p.2 h0 hp.1
    have hcont : mapContains ((AddPublicKey p.1 p.2 c).2).entries
        defaultKeyID = true := by
      unfold mapContains
      rw [hstep]
      exact h0
    have htail := ih (AddPublicKey p.1 p.2 c).2 hcont
      (fun q hq => hl q (List.mem_cons_of_mem p hq))
    calc mapLookup ((addPublicKeys (p :: rest) c).entries) defaultKeyID
        = mapLookup ((addPublicKeys rest (AddPublicKey p.1 p.2 c).2).entries)
            defaultKeyID := rfl
      _ = mapLookup ((AddPublicKey p.1 p.2 c).2).entries defaultKeyID := htail
      _ = mapLookup c.entries defaultKeyID := hstep

/-- C7 witness: after a first private-key insertion establishes the
default entry, a second private-key insertion at kid `"k2"` leaves the
entry at `"0"` unchanged. -/
theorem addPublicKeys_default_unchanged_witness :
    mapContains ((AddPublicKey "k1" (.rsaPrivateKey 0) {}).2).entries
        defaultKeyID = true ∧
    mapLookup ((addPublicKeys [("k2", .rsaPrivateKey 1)]
        (AddPublicKey "k1" (.rsaPrivateKey 0) {}).2).entries) defaultKeyID
      = mapLookup ((AddPublicKey "k1" (.rsaPrivateKey 0) {}).2).entries
          defaultKeyID :=
  ⟨by decide,
    addPublicKeys_default_unchanged (AddPublicKey "k1" (.rsaPrivateKey 0) {}).2
      [("k2", .rsaPrivateKey 1)] (by decide) (by decide)⟩


/-- C4: in every reachable configuration whose registry entries at
non-default kids hold no private key, `GetPrivateKey` fails with
`ErrECDSAKeysNotFound` when the committed family is `"ecdsa"` and with
`ErrRSAKeysNotFound` otherwise; and whenever some non-default entry does
hold a private key, it returns a private key together with its kid, taken
from an entry whose kid is not the default `"0"`. -/
theorem getPrivateKey_spec (c : CommonTokenConfig) (hr : Reachable c) :
    ((∀ p ∈ c.entries, p.1 ≠ defaultKeyID → isPrivateKey p.2 = false) →
      GetPrivateKey c = .error (if c.tokenType = "ecdsa"
        then JwtError.ErrECDSAKeysNotFound else JwtError.ErrRSAKeysNotFound))
    ∧ ((∃ p ∈ c.entries, p.1 ≠ defaultKeyID ∧ isPrivateKey p.2 = true) →
      ∃ k kid, GetPrivateKey c = .ok (k, kid) ∧ kid ≠ defaultKeyID ∧
        (kid, k) ∈ c.entries ∧ isPrivateKey k = true) := by
  constructor
  · intro hnone
    rcases hc : c.tokenKeys with _ | m
    · have hecd : ¬ (c.tokenType = "ecdsa") := by
        intro he
        exact reachable_family_has_map hr (by simp [he]) hc
      rw [if_neg hecd]
      simp [GetPrivateKey, hc]
    · have hm : c.entries = m := by simp [CommonTokenConfig.entries, hc]
      have hfind : m.find?
          (fun p => decide (p.1 ≠ defaultKeyID) && isPrivateKey p.2) = none := by
        rw [List.find?_eq_none]
        intro p hp
        by_cases hd : p.1 = defaultKeyID
        · simp [hd]
        · simp [hd, hnone p (hm ▸ hp) hd]
      simp only [GetPrivateKey, hc, hfind]
      split_ifs <;> rfl
  · intro hsome
    rcases hc : c.tokenKeys with _ | m
    · rcases hsome with ⟨p, hp, _⟩
      rw [CommonTokenConfig.entries, hc] at hp
      simp at hp
    · have hm : c.entries = m := by simp [CommonTokenConfig.entries, hc]
      rcases hsome with ⟨p, hp, hd, hpriv⟩
      have hs : (m.find?
          (fun p => decide (p.1 ≠ defaultKeyID) && isPrivateKey p.2)).isSome := by
        rw [List.find?_isSome]
        exact ⟨p, hm ▸ hp, by simp [hd, hpriv]⟩
      rcases hq : m.find?
          (fun p => decide (p.1 ≠ defaultKeyID) && isPrivateKey p.2) with _ | q
      · rw [hq] at hs
        simp at hs
      · have hqprop := List.find?_some hq
        simp only [Bool.and_eq_true, decide_eq_true_eq] at hqprop
        refine ⟨q.2, q.1, ?_, hqprop.1, ?_, hqprop.2⟩
        · have hq' := hq
          simp only [ne_eq, decide_not] at hq'
          simp [GetPrivateKey, hc, hq']
        · rw [hm]
          exact (Prod.mk.eta) ▸ List.mem_of_find?_eq_some hq

/-- C4 witness: the configuration obtained by one private-key insertion
holds only the two derived public keys; `GetPrivateKey` fails with
`ErrRSAKeysNotFound` since the committed family is not `"ecdsa"`. -/
theorem getPrivateKey_spec_witness :
    (∀ p ∈ ((AddPublicKey "k1" (.rsaPrivateKey 0) {}).2).entries,
        p.1 ≠ defaultKeyID → isPrivateKey p.2 = false) ∧
    GetPrivateKey (AddPublicKey "k1" (.rsaPrivateKey 0) {}).2
      = .error .ErrRSAKeysNotFound := by
  have h := (getPrivateKey_spec (AddPublicKey "k1" (.rsaPrivateKey 0) {}).2
      (Reachable.addPublicKey "k1" (.rsaPrivateKey 0) Reachable.init)).1
      (by decide)
  refine ⟨by decide, ?_⟩
  rw [if_neg (by decide)] at h
  exact h


/-- C9: `AddPublicKey` only ever stores public-key objects. If every entry
of the registry is a public-key object, that still holds after any
`AddPublicKey` call; on success a private-key input is stored as its
derived public key at the given kid and a public-key input is stored as
is; every other input (including a shared-secret string, which
`getKeyType` would classify) fails with `ErrUnsupportedKeyType` and leaves
the entries unchanged. -/
theorem addPublicKey_stores_only_public (c : CommonTokenConfig)
    (kid : String) (km : KeyMaterial)
    (hinv : ∀ p ∈ c.entries, isPublicKeyObj p.2 = true) :
    (∀ p ∈ ((AddPublicKey kid km c).2).entries, isPublicKeyObj p.2 = true)
    ∧ (isPrivateKey km = true → (AddPublicKey kid km c).1 = .ok () →
        mapLookup ((AddPublicKey kid km c).2).entries kid
          = some (publicKeyOf km))
    ∧ (isPublicKeyObj km = true → (AddPublicKey kid km c).1 = .ok () →
        mapLookup ((AddPublicKey kid km c).2).entries kid = some km)
    ∧ (isPrivateKey km = false → isPublicKeyObj km = false → kid ≠ "" →
        (AddPublicKey kid km c).1 = .error .ErrUnsupportedKeyType
        ∧ ((AddPublicKey kid km c).2).entries = c.entries) := by
  by_cases he : kid = ""
  · subst he
    rw [addPublicKey_empty_kid_fails c km]
    refine ⟨hinv, ?_, ?_, ?_⟩
    · intro _ hok
      cases hok
    · intro _ hok
      cases hok
    · intro _ _ habs
      exact absurd rfl habs
  · have hmem1 : ∀ (v w : KeyMaterial), isPublicKeyObj v = true →
        isPublicKeyObj w = true →
        ∀ p ∈ mapInsert (mapInsert (c.tokenKeys.getD []) kid v)
            defaultKeyID w, isPublicKeyObj p.2 = true := by
      intro v w hv hw p hp
      rcases mem_mapInsert hp with h | h
      · rw [h]
        exact hw
      · rcases mem_mapInsert h with h' | h'
        · rw [h']
          exact hv
        · exact hinv p h'
    have hmem0 : ∀ (v : KeyMaterial), isPublicKeyObj v = true →
        ∀ p ∈ mapInsert (c.tokenKeys.getD []) kid v,
          isPublicKeyObj p.2 = true := by
      intro v hv p hp
      rcases mem_mapInsert hp with h | h
      · rw [h]
        exact hv
      · exact hinv p h
    cases km with
    | str s =>
      refine ⟨?_, ?_, ?_, ?_⟩
      · simpa [AddPublicKey, he, CommonTokenConfig.entries] using hinv
      · intro hpriv
        cases hpriv
      · intro hpub
        cases hpub
      · intro _ _ _
        constructor <;> simp [AddPublicKey, he, CommonTokenConfig.entries]
    | other n =>
      refine ⟨?_, ?_, ?_, ?_⟩
      · simpa [AddPublicKey, he, CommonTokenConfig.entries] using hinv
      · intro hpriv
        cases hpriv
      · intro hpub
        cases hpub
      · intro _ _ _
        constructor <;> simp [AddPublicKey, he, CommonTokenConfig.entries]
    | rsaPrivateKey n =>
      simp only [AddPublicKey, if_neg he, CommonTokenConfig.entries,
        Option.getD_some]
      split_ifs with hcont
      · refine ⟨hmem0 _ rfl, ?_, ?_, ?_⟩
        · intro _ _
          exact mapLookup_insert_self _ kid _
        · intro hpub _
          cases hpub
        · intro hpriv
          cases hpriv
      · refine ⟨hmem1 _ _ rfl rfl, ?_, ?_, ?_⟩
        · intro _ _
          by_cases hk0 : kid = defaultKeyID
          · subst hk0
            exact mapLookup_insert_self _ defaultKeyID _
          · rw [mapLookup_insert_ne _ defaultKeyID kid _ hk0]
            exact mapLookup_insert_self _ kid _
        · intro hpub
          cases hpub
        · intro hpriv
          cases hpriv
    | ecdsaPrivateKey n =>
      simp only [AddPublicKey, if_neg he, CommonTokenConfig.entries,
        Option.getD_some]
      split_ifs with hcont
      · refine ⟨hmem0 _ rfl, ?_, ?_, ?_⟩
        · intro _ _
          exact mapLookup_insert_self _ kid _
        · intro hpub _
          cases hpub
        · intro hpriv
          cases hpriv
      · refine ⟨hmem1 _ _ rfl rfl, ?_, ?_, ?_⟩
        · intro _ _
          by_cases hk0 : kid = defaultKeyID
          · subst hk0
            exact mapLookup_insert_self _ defaultKeyID _
          · rw [mapLookup_insert_ne _ defaultKeyID kid _ hk0]
            exact mapLookup_insert_self _ kid _
        · intro hpub
          cases hpub
        · intro hpriv
          cases hpriv
    | rsaPublicKey n =>
      simp only [AddPublicKey, if_neg he, CommonTokenConfig.entries,
        Option.getD_some]
      refine ⟨hmem0 _ rfl, ?_, ?_, ?_⟩
      · intro hpriv
        cases hpriv
      · intro _ _
        exact mapLookup_insert_self _ kid _
      · intro _ hpub
        cases hpub
    | ecdsaPublicKey n =>
      simp only [AddPublicKey, if_neg he, CommonTokenConfig.entries,
        Option.getD_some]
      refine ⟨hmem0 _ rfl, ?_, ?_, ?_⟩
      · intro hpriv
        cases hpriv
      · intro _ _
        exact mapLookup_insert_self _ kid _
      · intro _ hpub
        cases hpub

/-- C9 witness: on the empty configuration the invariant holds trivially
and inserting the RSA private key tagged `0` at `"k1"` stores only
public-key objects. -/
theorem addPublicKey_stores_only_public_witness :
    (∀ p ∈ (({} : CommonTokenConfig)).entries, isPublicKeyObj p.2 = true) ∧
    (∀ p ∈ ((AddPublicKey "k1" (.rsaPrivateKey 0) {}).2).entries,
        isPublicKeyObj p.2 = true) :=
  ⟨by decide,
    (addPublicKey_stores_only_public {} "k1" (.rsaPrivateKey 0)
      (by decide)).1⟩


end CaddyAuthJwt
